import Mathlib

/-!
Verification of the EIS level-0 correction pipeline (`eispy/eis_prep.py`):
the correction stages, the detector-geometry resolver, the defect-map
compositor and the calibration fetcher, shallowly embedded over lists of
rationals (numpy float arrays become `List`-nested rationals, boolean masks
become `Bool`, in-place mutation becomes explicit result values, and the
network becomes an explicit archive oracle plus a request log).
-/

/-- A 2-D array (one CCD slice): list of rows. -/
abbrev Mat := List (List ℚ)

/-- A 3-D array (exposure index × row × column), the shape of `data`/`error`. -/
abbrev Arr3 := List (List (List ℚ))

/-- A 3-D boolean mask, as produced by stacking per-slice defect masks. -/
abbrev Mask3 := List (List (List Bool))

/-- `__missing__ = -100`, the sentinel written into the error array. -/
def missingSentinel : ℚ := -100

/-- Elementwise map over a 3-D array (a numpy elementwise operation). -/
def map3 (f : ℚ → ℚ) (a : Arr3) : Arr3 :=
  a.map (fun m => m.map (fun r => r.map f))

/-- Elementwise combination of two 3-D arrays of identical shape
(a numpy elementwise operation on `data`/`error`). -/
def zipWith3 (f : ℚ → ℚ → ℚ) (a b : Arr3) : Arr3 :=
  List.zipWith (fun m n => List.zipWith (fun r s => List.zipWith f r s) m n) a b

/-- Elementwise combination of a 3-D boolean mask with a 3-D array
(a numpy masked assignment `arr[mask] = v`). -/
def zipMask3 (f : Bool → ℚ → ℚ) (a : Mask3) (b : Arr3) : Arr3 :=
  List.zipWith (fun m n => List.zipWith (fun r s => List.zipWith f r s) m n) a b

/-- Element lookup in a 3-D array: `a[i, j, k]`, `none` when out of bounds. -/
def get3 (a : Arr3) (i j k : ℕ) : Option ℚ :=
  a[i]?.bind (fun m => m[j]?.bind (fun r => r[k]?))

/-- `_remove_zeros_saturated` (eis_prep.py:50-66): for each record, the mask
`zeros` is `data <= 0` or-ed with `data >= 16383`; `data[zeros] = 0` and
`err[zeros] = __missing__`, elementwise and in place.  Modeled as returning
the updated `(data, error)` pair. -/
def remove_zeros_saturated (data err : Arr3) : Arr3 × Arr3 :=
  (map3 (fun x => if x ≤ 0 ∨ 16383 ≤ x then 0 else x) data,
   zipWith3 (fun x e => if x ≤ 0 ∨ 16383 ≤ x then missingSentinel else e) data err)

-- Pointwise access lemmas for the elementwise operations.

theorem getq_zipWith {α β γ : Type} (f : α → β → γ) :
    ∀ (a : List α) (b : List β) (n : ℕ) (x : α) (y : β),
      a[n]? = some x → b[n]? = some y →
      (List.zipWith f a b)[n]? = some (f x y) := by
  intro a
  induction a with
  | nil => intro b n x y h; simp at h
  | cons hd tl ih =>
    intro b n x y hx hy
    cases b with
    | nil => simp at hy
    | cons hd' tl' =>
      cases n with
      | zero =>
        simp at hx hy
        simp [List.zipWith, hx, hy]
      | succ m =>
        simp at hx hy
        simpa [List.zipWith] using ih tl' m x y hx hy

theorem get3_map3 (f : ℚ → ℚ) (a : Arr3) (i j k : ℕ) (x : ℚ)
    (h : get3 a i j k = some x) : get3 (map3 f a) i j k = some (f x) := by
  unfold get3 at h ⊢
  unfold map3
  cases ha : a[i]? with
  | none => rw [ha] at h; simp at h
  | some m =>
    rw [ha] at h
    simp only [Option.some_bind] at h
    cases hm : m[j]? with
    | none => rw [hm] at h; simp at h
    | some r =>
      rw [hm] at h
      simp only [Option.some_bind] at h
      simp [List.getElem?_map, ha, hm, h]

theorem get3_zipWith3 (f : ℚ → ℚ → ℚ) (a b : Arr3) (i j k : ℕ) (x y : ℚ)
    (ha : get3 a i j k = some x) (hb : get3 b i j k = some y) :
    get3 (zipWith3 f a b) i j k = some (f x y) := by
  unfold get3 at ha hb ⊢
  unfold zipWith3
  cases h1 : a[i]? with
  | none => rw [h1] at ha; simp at ha
  | some m =>
    cases h2 : b[i]? with
    | none => rw [h2] at hb; simp at hb
    | some n =>
      rw [h1] at ha; rw [h2] at hb
      simp only [Option.some_bind] at ha hb
      cases h3 : m[j]? with
      | none => rw [h3] at ha; simp at ha
      | some r =>
        cases h4 : n[j]? with
        | none => rw [h4] at hb; simp at hb
        | some s =>
          rw [h3] at ha; rw [h4] at hb
          simp only [Option.some_bind] at ha hb
          rw [getq_zipWith _ a b i m n h1 h2]
          simp only [Option.some_bind]
          rw [getq_zipWith _ m n j r s h3 h4]
          simp only [Option.some_bind]
          exact getq_zipWith f r s k x y ha hb

/-- C5: for every channel record and pixel `p`, if `data[p] <= 0` or
`data[p] >= 16383` before `_remove_zeros_saturated`, then afterwards
`data[p] == 0` and `error[p] == -100`; every other pixel's data and error
values are unchanged by the stage. -/
theorem c5_remove_zeros_saturated_pointwise
    (data err : Arr3) (i j k : ℕ) (x e : ℚ)
    (hx : get3 data i j k = some x) (he : get3 err i j k = some e) :
    ((x ≤ 0 ∨ 16383 ≤ x) →
      get3 (remove_zeros_saturated data err).1 i j k = some 0 ∧
      get3 (remove_zeros_saturated data err).2 i j k = some (-100)) ∧
    (0 < x ∧ x < 16383 →
      get3 (remove_zeros_saturated data err).1 i j k = some x ∧
      get3 (remove_zeros_saturated data err).2 i j k = some e) := by
  constructor
  · intro hbad
    constructor
    · have := get3_map3 (fun x => if x ≤ 0 ∨ 16383 ≤ x then 0 else x) data i j k x hx
      simpa [remove_zeros_saturated, if_pos hbad] using this
    · have := get3_zipWith3
        (fun x e => if x ≤ 0 ∨ 16383 ≤ x then missingSentinel else e) data err i j k x e hx he
      simpa [remove_zeros_saturated, missingSentinel, if_pos hbad] using this
  · intro hgood
    have hng : ¬ (x ≤ 0 ∨ 16383 ≤ x) := by
      push_neg
      exact ⟨hgood.1, hgood.2⟩
    constructor
    · have := get3_map3 (fun x => if x ≤ 0 ∨ 16383 ≤ x then 0 else x) data i j k x hx
      simpa [remove_zeros_saturated, if_neg hng] using this
    · have := get3_zipWith3
        (fun x e => if x ≤ 0 ∨ 16383 ≤ x then missingSentinel else e) data err i j k x e hx he
      simpa [remove_zeros_saturated, if_neg hng] using this

/-- Witness for C5 at a concrete record: pixel (0,0,0) is saturated and gets
zeroed and marked, pixel (0,0,1) is in range and untouched. -/
theorem c5_witness :
    (get3 (remove_zeros_saturated [[[16384, 7]]] [[[0, 0]]]).1 0 0 0 = some 0 ∧
     get3 (remove_zeros_saturated [[[16384, 7]]] [[[0, 0]]]).2 0 0 0 = some (-100)) ∧
    (get3 (remove_zeros_saturated [[[16384, 7]]] [[[0, 0]]]).1 0 0 1 = some 7 ∧
     get3 (remove_zeros_saturated [[[16384, 7]]] [[[0, 0]]]).2 0 0 1 = some 0) := by
  refine ⟨?_, ?_⟩
  · exact (c5_remove_zeros_saturated_pointwise [[[16384, 7]]] [[[0, 0]]] 0 0 0 16384 0
      (by decide) (by decide)).1 (by norm_num)
  · exact (c5_remove_zeros_saturated_pointwise [[[16384, 7]]] [[[0, 0]]] 0 0 1 7 0
      (by decide) (by decide)).2 (by norm_num)

-- Fusion lemmas used for the idempotence of the invalid-pixel stage.

theorem zipWith_map_zip {α β α' β' γ : Type} (h : α' → β' → γ) (f : α → α') (k : α → β → β') :
    ∀ (a : List α) (b : List β),
      List.zipWith h (a.map f) (List.zipWith k a b) =
        List.zipWith (fun x y => h (f x) (k x y)) a b := by
  intro a
  induction a with
  | nil => intro b; simp
  | cons x xs ih =>
    intro b
    cases b with
    | nil => simp
    | cons y ys => simp [ih]

theorem map3_map3 (f g : ℚ → ℚ) (a : Arr3) :
    map3 f (map3 g a) = map3 (fun x => f (g x)) a := by
  simp [map3, List.map_map, Function.comp_def]

theorem zipWith3_fusion (h : ℚ → ℚ → ℚ) (f : ℚ → ℚ) (k : ℚ → ℚ → ℚ) (a b : Arr3) :
    zipWith3 h (map3 f a) (zipWith3 k a b) =
      zipWith3 (fun x y => h (f x) (k x y)) a b := by
  simp only [zipWith3, map3, zipWith_map_zip]

/-- C10: the invalid-pixel stage is idempotent: applying
`_remove_zeros_saturated` twice in succession yields the same data and error
arrays as applying it once (for every channel record, unconditionally). -/
theorem c10_remove_zeros_saturated_idempotent (data err : Arr3) :
    remove_zeros_saturated (remove_zeros_saturated data err).1
        (remove_zeros_saturated data err).2 =
      remove_zeros_saturated data err := by
  unfold remove_zeros_saturated
  simp only [Prod.mk.injEq]
  constructor
  · rw [map3_map3]
    have : (fun x : ℚ =>
        (if (if x ≤ 0 ∨ 16383 ≤ x then (0:ℚ) else x) ≤ 0 ∨
            16383 ≤ (if x ≤ 0 ∨ 16383 ≤ x then (0:ℚ) else x) then (0:ℚ)
          else if x ≤ 0 ∨ 16383 ≤ x then (0:ℚ) else x)) =
        (fun x : ℚ => if x ≤ 0 ∨ 16383 ≤ x then (0:ℚ) else x) := by
      funext x
      by_cases h : x ≤ 0 ∨ 16383 ≤ x
      · simp only [if_pos h]
        norm_num
      · simp only [if_neg h, if_neg h]
    rw [this]
  · rw [zipWith3_fusion]
    have : (fun x y : ℚ =>
        (if (if x ≤ 0 ∨ 16383 ≤ x then (0:ℚ) else x) ≤ 0 ∨
            16383 ≤ (if x ≤ 0 ∨ 16383 ≤ x then (0:ℚ) else x) then missingSentinel
          else if x ≤ 0 ∨ 16383 ≤ x then missingSentinel else y)) =
        (fun x y : ℚ => if x ≤ 0 ∨ 16383 ≤ x then missingSentinel else y) := by
      funext x y
      by_cases h : x ≤ 0 ∨ 16383 ≤ x
      · simp only [if_pos h]
        norm_num
      · simp only [if_neg h, if_neg h]
    rw [this]

-- ====================  Dark-current stage (eis_prep.py:69-97,154-192)  ====

/-- Stable insertion of an element into a list, keeping it before the first
element `y` with `le x y`. -/
def insertLe {α : Type} (le : α → α → Bool) (x : α) : List α → List α
  | [] => [x]
  | y :: ys => if le x y then x :: y :: ys else y :: insertLe le x ys

/-- Stable insertion sort (the semantics of Python's stable `list.sort`). -/
def sortLe {α : Type} (le : α → α → Bool) : List α → List α
  | [] => []
  | x :: xs => insertLe le x (sortLe le xs)

/-- Ascending comparison on rationals, for `ndarray.sort` / `np.median`. -/
def ratLe (a b : ℚ) : Bool := decide (a ≤ b)

/-- `np.median` of a 1-D sequence: sort ascending, take the middle element
(odd length) or the mean of the two middle elements (even length).
`none` models the NaN produced on an empty input. -/
def median (l : List ℚ) : Option ℚ :=
  if l.length = 0 then none
  else
    let s := sortLe ratLe l
    let n := l.length
    if n % 2 = 1 then some (s.getD (n / 2) 0)
    else some ((s.getD (n / 2 - 1) 0 + s.getD (n / 2) 0) / 2)

/-- Row-major flattening of a 3-D array (`ndarray.flatten`). -/
def flatten3 (a : Arr3) : List ℚ :=
  (a.map List.flatten).flatten

/-- `_remove_dark_current_full_ccd` (eis_prep.py:154-176): select the quiet
column range from the window's CCD start offset, subtract the median of
`data[:, :, p0:p1]` from the whole array.  `none` models the NaN poisoning
when the quiet region is empty. -/
def remove_dark_current_full_ccd (ccd_x_start : ℕ) (data : Arr3) : Option Arr3 :=
  let pixels : ℕ × ℕ :=
    if ccd_x_start = 1024 then (944, 989)
    else if ccd_x_start = 3072 then (926, 971)
    else (39, 84)
  let quiet_vals := (data.map (fun m => (m.map (fun r => (r.take pixels.2).drop pixels.1)).flatten)).flatten
  (median quiet_vals).map (fun mval => map3 (fun x => x - mval) data)

/-- `_remove_dark_current_part_ccd` (eis_prep.py:179-192): flatten, sort
ascending, subtract the median of the lowest 2% of values.  The Python index
`0.02 * flatarr.shape[0]` is a float that the (numpy-era) slice truncates, so
the slice keeps the first `⌊0.02·n⌋ = 2·n/100` sorted values. -/
def remove_dark_current_part_ccd (data : Arr3) : Option Arr3 :=
  let n := (flatten3 data).length
  let flatarr := sortLe ratLe (flatten3 data)
  (median (flatarr.take (2 * n / 100))).map (fun low => map3 (fun x => x - low) data)

/-- The subtraction step of `_remove_dark_current` (eis_prep.py:89-93):
window width 1024 selects the full-CCD strategy, anything else the
partial-CCD strategy. -/
def darkSubtract (ccd_xwidth ccd_x_start : ℕ) (data : Arr3) : Option Arr3 :=
  if ccd_xwidth = 1024 then remove_dark_current_full_ccd ccd_x_start data
  else remove_dark_current_part_ccd data

/-- `_remove_dark_current` (eis_prep.py:69-97) for one channel record:
subtract the pedestal, then unless `retain` is set, take the mask
`negatives = data <= 0` and set `data[negatives] = 0`,
`err[negatives] = __missing__`. -/
def remove_dark_current (ccd_xwidth ccd_x_start : ℕ) (retain : Bool)
    (data err : Arr3) : Option (Arr3 × Arr3) :=
  (darkSubtract ccd_xwidth ccd_x_start data).map fun d1 =>
    if retain then (d1, err)
    else (map3 (fun x => if x ≤ 0 then 0 else x) d1,
          zipWith3 (fun x e => if x ≤ 0 then missingSentinel else e) d1 err)

/-- C4 (amended): without `retain`, exactly the pixels whose post-subtraction
value is non-positive (`<= 0`, not only the strictly negative ones) are set to
0 in data and marked with the missing sentinel in error; strictly positive
pixels are left unmodified; with `retain`, the subtracted data is kept and no
pixel is marked by this stage. -/
theorem c4_dark_current_clamp_nonpositive
    (ccd_xwidth ccd_x_start : ℕ) (data err d1 : Arr3)
    (hs : darkSubtract ccd_xwidth ccd_x_start data = some d1)
    (i j k : ℕ) (x e : ℚ)
    (hx : get3 d1 i j k = some x) (he : get3 err i j k = some e) :
    (∃ dR eR, remove_dark_current ccd_xwidth ccd_x_start false data err = some (dR, eR) ∧
       get3 dR i j k = some (if x ≤ 0 then 0 else x) ∧
       get3 eR i j k = some (if x ≤ 0 then missingSentinel else e)) ∧
    remove_dark_current ccd_xwidth ccd_x_start true data err = some (d1, err) := by
  constructor
  · refine ⟨map3 (fun x => if x ≤ 0 then 0 else x) d1,
      zipWith3 (fun x e => if x ≤ 0 then missingSentinel else e) d1 err, ?_, ?_, ?_⟩
    · simp [remove_dark_current, hs]
    · exact get3_map3 (fun x => if x ≤ 0 then 0 else x) d1 i j k x hx
    · exact get3_zipWith3 (fun x e => if x ≤ 0 then missingSentinel else e) d1 err i j k x e hx he
  · simp [remove_dark_current, hs]

/-- The concrete record used to settle C4: shape 1 × 5 × 10, fifty distinct
values with minimum 5; the lowest 2% of the 50 values is the single value 5,
so the partial-CCD strategy subtracts exactly 5. -/
def c4data : Arr3 :=
  [[[5, 6, 7, 8, 9, 10, 11, 12, 13, 14],
    [15, 16, 17, 18, 19, 20, 21, 22, 23, 24],
    [25, 26, 27, 28, 29, 30, 31, 32, 33, 34],
    [35, 36, 37, 38, 39, 40, 41, 42, 43, 44],
    [45, 46, 47, 48, 49, 50, 51, 52, 53, 54]]]

/-- The all-zero error array matching `c4data`. -/
def c4err : Arr3 :=
  [[[0, 0, 0, 0, 0, 0, 0, 0, 0, 0],
    [0, 0, 0, 0, 0, 0, 0, 0, 0, 0],
    [0, 0, 0, 0, 0, 0, 0, 0, 0, 0],
    [0, 0, 0, 0, 0, 0, 0, 0, 0, 0],
    [0, 0, 0, 0, 0, 0, 0, 0, 0, 0]]]

/-- `c4data` after the partial-CCD subtraction of 5. -/
def c4sub : Arr3 := map3 (fun x => x - 5) c4data

/-- Counterexample to C4 as stated: in the concrete record `c4data` (window
width 10, partial-CCD strategy, no `retain`), pixel (0,0,0) has
post-subtraction value exactly 0 — zero, not negative — yet the stage changes
its error value from 0 to the missing sentinel -100, so zero-valued pixels
are not left unmodified. -/
theorem c4_counterexample :
    (darkSubtract 10 0 c4data).bind (fun d1 => get3 d1 0 0 0) = some 0 ∧
    (remove_dark_current 10 0 false c4data c4err).bind (fun r => get3 r.2 0 0 0) =
      some (-100) ∧
    get3 c4err 0 0 0 = some 0 ∧ ¬ ((0:ℚ) < 0) := by
  have h : darkSubtract 10 0 c4data = some c4sub := rfl
  refine ⟨?_, ?_, by decide, by norm_num⟩
  · rw [h]
    norm_num [c4sub, c4data, map3, get3]
  · rw [remove_dark_current, h]
    norm_num [c4sub, c4data, c4err, map3, zipWith3, get3, missingSentinel]

/-- Witness for C4 (amended) at the concrete record `c4data`: every
hypothesis of `c4_dark_current_clamp_nonpositive` is discharged at pixel
(0,0,0), whose post-subtraction value is 0. -/
theorem c4_witness :
    (∃ dR eR, remove_dark_current 10 0 false c4data c4err = some (dR, eR) ∧
       get3 dR 0 0 0 = some (if (0:ℚ) ≤ 0 then 0 else 0) ∧
       get3 eR 0 0 0 = some (if (0:ℚ) ≤ 0 then missingSentinel else 0)) ∧
    remove_dark_current 10 0 true c4data c4err = some (c4sub, c4err) :=
  c4_dark_current_clamp_nonpositive 10 0 c4data c4err c4sub rfl
    0 0 0 0 0 (by norm_num [c4sub, c4data, map3, get3]) (by decide)

-- ====================  Cosmic-ray stage (eis_prep.py:129-146)  ============

/-- `_remove_cosmic_rays` (eis_prep.py:129-146), with the external
`detect_cosmics` algorithm as a parameter (per 2-D slice it returns the
boolean defect mask and the cleaned slice).  The source computes
`slices = [detect_cosmics(s) for s in data]`, then `data = np.array([s[1]
for s in slices])` — which rebinds the local name `data` only, so the
caller's data array is never written — and `err[mask] = True`, which stores
boolean `True` into the float error array, i.e. the value 1. -/
def remove_cosmic_rays (detect : Mat → (List (List Bool)) × Mat)
    (data err : Arr3) : Arr3 × Arr3 :=
  let slices := data.map detect
  let mask : Mask3 := slices.map Prod.fst
  (data, zipMask3 (fun m e => if m then 1 else e) mask err)

/-- A concrete stand-in for `detect_cosmics`: flags the (single) pixel of a
1×1 slice as a cosmic-ray hit and returns the cleaned value 3. -/
def c1detect : Mat → (List (List Bool)) × Mat := fun _ => ([[true]], [[3]])

/-- C1 evaluated at a failing input: for a record whose only pixel is flagged
by the cosmic-ray detection mask, the stage leaves the error array holding 1
(numpy's float coercion of `True`), not the missing sentinel -100. -/
theorem c1_cosmic_ray_error_not_missing :
    (remove_cosmic_rays c1detect [[[5]]] [[[0]]]).2 = [[[1]]] ∧
    (1 : ℚ) ≠ missingSentinel := by
  constructor
  · rfl
  · norm_num [missingSentinel]

/-- C2 evaluated at a failing input: the stage returns the record's data
array unchanged, while the stack of cleaned slices produced by the detection
algorithm differs from it — so the record's data does not equal the cleaned
stack. -/
theorem c2_cosmic_ray_data_not_replaced :
    (remove_cosmic_rays c1detect [[[5]]] [[[0]]]).1 = [[[5]]] ∧
    (([[[5]]] : Arr3).map c1detect).map Prod.snd = [[[3]]] ∧
    ([[[5]]] : Arr3) ≠ [[[3]]] := by
  refine ⟨rfl, rfl, by norm_num⟩

-- ============  Detector geometry resolver (eis_prep.py:299-313)  ==========

/-- A calendar date as carried by the observation metadata
(`datetime` restricted to midnight, which is all this module constructs). -/
structure ObsDate where
  year : ℕ
  month : ℕ
  day : ℕ
deriving DecidableEq

/-- `datetime` comparison: lexicographic on (year, month, day). -/
def dateLe (a b : ObsDate) : Bool :=
  decide (a.year < b.year ∨ (a.year = b.year ∧
    (a.month < b.month ∨ (a.month = b.month ∧ a.day ≤ b.day))))

/-- `_calculate_detectors` (eis_prep.py:299-313): quadrant labels from the
observation date and window.  Dates on/before 2008-01-18 give `"middle"`;
otherwise `"top"`/`"bottom"`/`"both"` from the Y window against the 512
midline; `"right"`/`"left"`/`"both"` from the X window against 1024. -/
def calculate_detectors (date : ObsDate)
    (y_window_start n_y_pixels x_start x_width : ℕ) : String × String :=
  (if dateLe date ⟨2008, 1, 18⟩ then "middle"
   else if 512 ≤ y_window_start then "top"
   else if y_window_start + n_y_pixels ≤ 512 then "bottom"
   else "both",
   if 1024 ≤ x_start then "right"
   else if x_start + x_width < 1024 then "left"
   else "both")

/-- The geometry rule exactly as the specification words it, on (start, end)
windows: vertical `"middle"` on/before the cutoff, else `"top"` when the
Y start ≥ 512, `"bottom"` when the Y end ≤ 512, else `"both"`; horizontal
`"right"` when the X start ≥ 1024, `"left"` when the X end < 1024, else
`"both"`. -/
def resolveSpec (date : ObsDate) (y_window x_window : ℕ × ℕ) : String × String :=
  (if dateLe date ⟨2008, 1, 18⟩ then "middle"
   else if 512 ≤ y_window.1 then "top"
   else if y_window.2 ≤ 512 then "bottom"
   else "both",
   if 1024 ≤ x_window.1 then "right"
   else if x_window.2 < 1024 then "left"
   else "both")

/-- C9: the geometry resolver computes exactly the specified rule (on any
well-formed windows, passed to the source function as start/extent), and the
three concrete examples of the claim hold. -/
theorem c9_calculate_detectors_spec :
    (∀ (date : ObsDate) (y0 y1 x0 x1 : ℕ), y0 ≤ y1 → x0 ≤ x1 →
       calculate_detectors date y0 (y1 - y0) x0 (x1 - x0) =
         resolveSpec date (y0, y1) (x0, x1)) ∧
    calculate_detectors ⟨2008, 1, 10⟩ 0 100 0 100 = ("middle", "left") ∧
    calculate_detectors ⟨2015, 1, 1⟩ 600 100 1200 100 = ("top", "right") ∧
    calculate_detectors ⟨2015, 1, 1⟩ 400 300 900 300 = ("both", "both") := by
  refine ⟨?_, by decide, by decide, by decide⟩
  intro date y0 y1 x0 x1 hy hx
  simp only [calculate_detectors, resolveSpec, Nat.add_sub_cancel' hy,
    Nat.add_sub_cancel' hx]

/-- Witness for C9: the general rule applied at the third example's window. -/
theorem c9_witness :
    calculate_detectors ⟨2015, 1, 1⟩ 400 (700 - 400) 900 (1200 - 900) =
      resolveSpec ⟨2015, 1, 1⟩ (400, 700) (900, 1200) :=
  c9_calculate_detectors_spec.1 ⟨2015, 1, 1⟩ 400 700 900 1200
    (by norm_num) (by norm_num)

-- ============  Defect-map compositor (eis_prep.py:196-234,316-336)  =======

/-- The value side of `_try_download_nearest_cal` as seen by the compositor:
a fetched quadrant bitmap or `None` when the fallback search is exhausted
(the memo and network state are modeled separately for the fetcher claims). -/
abbrev Fetch := ObsDate → String → String → String → String → Option Mat

/-- `tb_tuple` (eis_prep.py:215): `('top', 'bottom')` for `'both'`, else the
single label. -/
def tbTuple (top_bot : String) : List String :=
  if top_bot = "both" then ["top", "bottom"] else [top_bot]

/-- `lr_tuple` (eis_prep.py:216). -/
def lrTuple (left_right : String) : List String :=
  if left_right = "both" then ["left", "right"] else [left_right]

/-- `_download_calibration_data` (eis_prep.py:196-224): one entry per
requested (vertical, horizontal) pair, keyed `vert + horiz`, holding the
fetch result — including `None` when the fetch came back empty. -/
def download_calibration_data (fetch : Fetch) (date : ObsDate)
    (pix_type detector top_bot left_right : String) :
    List (String × Option Mat) :=
  ((tbTuple top_bot).map (fun v =>
    (lrTuple left_right).map (fun h => (v ++ h, fetch date pix_type detector v h)))).flatten

/-- First-match association lookup (the dict built by
`_download_calibration_data` has distinct keys). -/
def assocFind (l : List (String × Option Mat)) (k : String) : Option (Option Mat) :=
  match l with
  | [] => none
  | (k', v) :: rest => if k' = k then some v else assocFind rest k

/-- The 512×1024 `zero_arr` (eis_prep.py:330). -/
def zeroTile : Mat := List.replicate 512 (List.replicate 1024 0)

/-- `arrays.get(key, zero_arr)` followed by the numpy slice assignment
(eis_prep.py:331-334): an absent key yields the zero tile; a key present
with value `None` makes the assignment raise (numpy cannot store `None`into
a float array), modeled as `none`. -/
def getTile (arrays : List (String × Option Mat)) (k : String) : Option Mat :=
  match assocFind arrays k with
  | none => some zeroTile
  | some v => v

/-- `List.map` with the element index, starting at `s`. -/
def mapIdxFrom {α β : Type} (f : ℕ → α → β) : ℕ → List α → List β
  | _, [] => []
  | n, a :: l => f n a :: mapIdxFrom f (n + 1) l

/-- The numpy 2-D slice assignment `canvas[r0:.., c0:..] = tile`: row `i`
takes tile row `i - r0` (when it exists), and inside it column `j` takes
tile entry `j - c0` (when it exists); everything else is untouched. -/
def setBlock (canvas : Mat) (r0 c0 : ℕ) (tile : Mat) : Mat :=
  mapIdxFrom (fun i row =>
    if r0 ≤ i then
      match tile[i - r0]? with
      | some trow =>
          mapIdxFrom (fun j v => if c0 ≤ j then (trow[j - c0]?).getD v else v) 0 row
      | none => row
    else row) 0 canvas

/-- The glueing of the four quadrant tiles into the 1024×2048 canvas, in the
source's assignment order (eis_prep.py:329-334): zeros, then topleft at
(0,0), bottomright at (512,1024), bottomleft at (512,0), topright at
(0,1024). -/
def glueTiles (tl br bl tr : Mat) : Mat :=
  setBlock (setBlock (setBlock (setBlock
    (List.replicate 1024 (List.replicate 2048 0)) 0 0 tl) 512 1024 br) 512 0 bl) 0 1024 tr

/-- The Python slice `l[a:b]` (non-negative indices: clamped, never
wrapping, empty when `a ≥ min b (length l)`). -/
def pySlice {α : Type} (l : List α) (a b : ℕ) : List α := (l.take b).drop a

/-- The 2-D crop `g[y0:y1, x0:x1]`. -/
def crop2 (g : Mat) (y0 y1 x0 x1 : ℕ) : Mat :=
  (pySlice g y0 y1).map (fun row => pySlice row x0 x1)

/-- The canvas part of `_get_pixel_map`: glue the four quadrant lookups;
fails (`none`) as soon as one requested quadrant's stored value is `None`. -/
def gluedCanvas (arrays : List (String × Option Mat)) : Option Mat :=
  (getTile arrays "topleft").bind fun tl =>
  (getTile arrays "bottomright").bind fun br =>
  (getTile arrays "bottomleft").bind fun bl =>
  (getTile arrays "topright").map fun tr => glueTiles tl br bl tr

/-- `_get_pixel_map` (eis_prep.py:316-336): resolve quadrants, download the
requested tiles, glue the canonical canvas and crop it to
`[y0:y1, x0 % 2048 : x1 % 2048]`. -/
def get_pixel_map (fetch : Fetch) (date : ObsDate) (pix_type detector : String)
    (y_window x_window : ℕ × ℕ) : Option Mat :=
  let y_window_start := y_window.1
  let x_start := x_window.1 % 2048
  let n_y_pixels := y_window.2 - y_window.1
  let x_width := x_window.2 - x_window.1
  let areas := calculate_detectors date y_window_start n_y_pixels x_start x_width
  let arrays := download_calibration_data fetch date pix_type detector areas.1 areas.2
  (gluedCanvas arrays).map fun g =>
    crop2 g y_window_start y_window.2 x_start (x_window.2 % 2048)

/-- Element lookup in a 2-D array. -/
def get2 (m : Mat) (i j : ℕ) : Option ℚ := m[i]?.bind (fun r => r[j]?)

/-- A well-shaped 512×1024 quadrant tile. -/
def Shape2 (m : Mat) : Prop := m.length = 512 ∧ ∀ r ∈ m, r.length = 1024

theorem shape2_zeroTile : Shape2 zeroTile := by
  refine ⟨List.length_replicate _ _, ?_⟩
  intro r hr
  rw [List.eq_of_mem_replicate hr, List.length_replicate]

theorem getElem?_mapIdxFrom {α β : Type} (f : ℕ → α → β) :
    ∀ (l : List α) (s n : ℕ), (mapIdxFrom f s l)[n]? = (l[n]?).map (f (s + n)) := by
  intro l
  induction l with
  | nil => intro s n; simp [mapIdxFrom]
  | cons a t ih =>
    intro s n
    cases n with
    | zero => simp [mapIdxFrom]
    | succ m =>
      simp only [mapIdxFrom, List.getElem?_cons_succ]
      rw [ih (s + 1) m]
      have : s + 1 + m = s + (m + 1) := by omega
      rw [this]

theorem length_mapIdxFrom {α β : Type} (f : ℕ → α → β) :
    ∀ (l : List α) (s : ℕ), (mapIdxFrom f s l).length = l.length := by
  intro l
  induction l with
  | nil => intro s; rfl
  | cons a t ih => intro s; simp [mapIdxFrom, ih]

theorem get2_setBlock (cnv : Mat) (r0 c0 : ℕ) (t : Mat) (i j : ℕ) :
    get2 (setBlock cnv r0 c0 t) i j =
      if r0 ≤ i then
        match t[i - r0]? with
        | some trow =>
            (get2 cnv i j).map (fun v => if c0 ≤ j then (trow[j - c0]?).getD v else v)
        | none => get2 cnv i j
      else get2 cnv i j := by
  unfold get2 setBlock
  rw [getElem?_mapIdxFrom]
  simp only [Nat.zero_add]
  cases hc : cnv[i]? with
  | none =>
    split
    · cases t[i - r0]? <;> simp
    · simp
  | some row =>
    simp only [Option.map_some', Option.some_bind]
    split
    · cases ht : t[i - r0]? with
      | none => rfl
      | some trow =>
        dsimp only
        rw [getElem?_mapIdxFrom]
        simp only [Nat.zero_add]
    · rfl

theorem rowlen_setBlock (cnv : Mat) (r0 c0 : ℕ) (t : Mat) (i : ℕ) :
    ((setBlock cnv r0 c0 t)[i]?).map List.length = (cnv[i]?).map List.length := by
  unfold setBlock
  rw [getElem?_mapIdxFrom]
  simp only [Nat.zero_add]
  cases hc : cnv[i]? with
  | none => rfl
  | some row =>
    simp only [Option.map_some']
    split
    · cases t[i - r0]? with
      | none => rfl
      | some trow => simp [length_mapIdxFrom]
    · rfl

theorem length_setBlock (cnv : Mat) (r0 c0 : ℕ) (t : Mat) :
    (setBlock cnv r0 c0 t).length = cnv.length := by
  unfold setBlock
  exact length_mapIdxFrom _ cnv 0

theorem rowlen_glueTiles (tl br bl tr : Mat) (i : ℕ) :
    ((glueTiles tl br bl tr)[i]?).map List.length =
      if i < 1024 then some 2048 else none := by
  unfold glueTiles
  rw [rowlen_setBlock, rowlen_setBlock, rowlen_setBlock, rowlen_setBlock,
    List.getElem?_replicate]
  split
  · rw [Option.map_some', List.length_replicate]
  · rfl

theorem length_glueTiles (tl br bl tr : Mat) :
    (glueTiles tl br bl tr).length = 1024 := by
  unfold glueTiles
  rw [length_setBlock, length_setBlock, length_setBlock, length_setBlock,
    List.length_replicate]

theorem get2_isSome_of_rowlen (m : Mat) (i j L : ℕ)
    (h : (m[i]?).map List.length = some L) (hj : j < L) :
    (get2 m i j).isSome = true := by
  cases hc : m[i]? with
  | none => rw [hc] at h; simp at h
  | some row =>
    rw [hc] at h
    simp only [Option.map_some', Option.some.injEq] at h
    have hjrow : j < row.length := by rw [h]; exact hj
    unfold get2
    rw [hc]
    simp only [Option.some_bind]
    rw [List.getElem?_eq_getElem hjrow]
    rfl

theorem map_ifskip (c0 j : ℕ) (hj : j < c0) (trow : List ℚ) (o : Option ℚ) :
    o.map (fun v => if c0 ≤ j then (trow[j - c0]?).getD v else v) = o := by
  cases o with
  | none => rfl
  | some v => simp [Nat.not_le.mpr hj]

theorem map_pastile (c0 j : ℕ) (trow : List ℚ) (hb : trow[j - c0]? = none) (o : Option ℚ) :
    o.map (fun v => if c0 ≤ j then (trow[j - c0]?).getD v else v) = o := by
  cases o with
  | none => rfl
  | some v => simp [hb]

theorem map_tile (c0 j : ℕ) (hj : c0 ≤ j) (trow : List ℚ) (w : ℚ)
    (hw : trow[j - c0]? = some w) (o : Option ℚ) (ho : o.isSome = true) :
    o.map (fun v => if c0 ≤ j then (trow[j - c0]?).getD v else v) = some w := by
  cases o with
  | none => simp at ho
  | some v => simp [hj, hw]

theorem get2_zeros (i j : ℕ) (hi : i < 1024) (hj : j < 2048) :
    get2 (List.replicate 1024 (List.replicate 2048 (0:ℚ))) i j = some 0 := by
  unfold get2
  rw [List.getElem?_replicate, if_pos hi]
  simp only [Option.some_bind]
  rw [List.getElem?_replicate, if_pos hj]

theorem get2_glue_topleft (tl br bl tr : Mat) (h1 : Shape2 tl)
    (i j : ℕ) (hi : i < 512) (hj : j < 1024) :
    get2 (glueTiles tl br bl tr) i j = get2 tl i j := by
  unfold glueTiles
  rw [get2_setBlock, if_pos (Nat.zero_le i)]
  have step4 : get2 (setBlock (setBlock (setBlock
      (List.replicate 1024 (List.replicate 2048 0)) 0 0 tl) 512 1024 br) 512 0 bl) i j =
      get2 tl i j := by
    rw [get2_setBlock, if_neg (by omega)]
    rw [get2_setBlock, if_neg (by omega)]
    rw [get2_setBlock, if_pos (Nat.zero_le i)]
    have hitl : i < tl.length := by rw [h1.1]; exact hi
    rw [Nat.sub_zero, List.getElem?_eq_getElem hitl]
    dsimp only
    rw [get2_zeros i j (by omega) (by omega), Option.map_some']
    have hmem : tl[i] ∈ tl := List.getElem_mem hitl
    have hjr : j < (tl[i]).length := by rw [h1.2 _ hmem]; exact hj
    rw [if_pos (Nat.zero_le j), Nat.sub_zero, List.getElem?_eq_getElem hjr]
    unfold get2
    rw [List.getElem?_eq_getElem hitl]
    simp only [Option.some_bind]
    rw [List.getElem?_eq_getElem hjr]
    rfl
  cases htr : tr[i - 0]? with
  | none => exact step4
  | some trow =>
    dsimp only
    rw [map_ifskip 1024 j hj trow, step4]

theorem get2_glue_topright (tl br bl tr : Mat) (h1 : Shape2 tl) (h4 : Shape2 tr)
    (i j : ℕ) (hi : i < 512) (hj : j < 1024) :
    get2 (glueTiles tl br bl tr) i (1024 + j) = get2 tr i j := by
  unfold glueTiles
  rw [get2_setBlock, if_pos (Nat.zero_le i)]
  have hitr : i < tr.length := by rw [h4.1]; exact hi
  rw [Nat.sub_zero, List.getElem?_eq_getElem hitr]
  dsimp only
  have hjr : j < (tr[i]).length := by
    rw [h4.2 _ (List.getElem_mem hitr)]; exact hj
  have hw : (tr[i])[1024 + j - 1024]? = some ((tr[i])[j]) := by
    rw [Nat.add_sub_cancel_left]
    exact List.getElem?_eq_getElem hjr
  have hsome : (get2 (setBlock (setBlock (setBlock
      (List.replicate 1024 (List.replicate 2048 0)) 0 0 tl) 512 1024 br) 512 0 bl)
      i (1024 + j)).isSome = true := by
    refine get2_isSome_of_rowlen _ i (1024 + j) 2048 ?_ (by omega)
    rw [rowlen_setBlock, rowlen_setBlock, rowlen_setBlock,
      List.getElem?_replicate, if_pos (show i < 1024 by omega),
      Option.map_some', List.length_replicate]
  rw [map_tile 1024 (1024 + j) (by omega) _ _ hw _ hsome]
  unfold get2
  rw [List.getElem?_eq_getElem hitr]
  simp only [Option.some_bind]
  rw [List.getElem?_eq_getElem hjr]

theorem get2_glue_bottomleft (tl br bl tr : Mat)
    (h1 : Shape2 tl) (h2 : Shape2 br) (h3 : Shape2 bl) (h4 : Shape2 tr)
    (i j : ℕ) (hi : i < 512) (hj : j < 1024) :
    get2 (glueTiles tl br bl tr) (512 + i) j = get2 bl i j := by
  unfold glueTiles
  rw [get2_setBlock, if_pos (Nat.zero_le (512 + i)), Nat.sub_zero,
    List.getElem?_eq_none (by rw [h4.1]; omega)]
  dsimp only
  rw [get2_setBlock, if_pos (show 512 ≤ 512 + i by omega),
    Nat.add_sub_cancel_left]
  have hibl : i < bl.length := by rw [h3.1]; exact hi
  rw [List.getElem?_eq_getElem hibl]
  dsimp only
  have hjr : j < (bl[i]).length := by
    rw [h3.2 _ (List.getElem_mem hibl)]; exact hj
  have hw : (bl[i])[j - 0]? = some ((bl[i])[j]) := by
    rw [Nat.sub_zero]
    exact List.getElem?_eq_getElem hjr
  have hsome : (get2 (setBlock (setBlock
      (List.replicate 1024 (List.replicate 2048 0)) 0 0 tl) 512 1024 br)
      (512 + i) j).isSome = true := by
    refine get2_isSome_of_rowlen _ (512 + i) j 2048 ?_ (by omega)
    rw [rowlen_setBlock, rowlen_setBlock,
      List.getElem?_replicate, if_pos (show 512 + i < 1024 by omega),
      Option.map_some', List.length_replicate]
  rw [map_tile 0 j (Nat.zero_le j) _ _ hw _ hsome]
  unfold get2
  rw [List.getElem?_eq_getElem hibl]
  simp only [Option.some_bind]
  rw [List.getElem?_eq_getElem hjr]

theorem get2_glue_bottomright (tl br bl tr : Mat)
    (h1 : Shape2 tl) (h2 : Shape2 br) (h3 : Shape2 bl) (h4 : Shape2 tr)
    (i j : ℕ) (hi : i < 512) (hj : j < 1024) :
    get2 (glueTiles tl br bl tr) (512 + i) (1024 + j) = get2 br i j := by
  unfold glueTiles
  rw [get2_setBlock, if_pos (Nat.zero_le (512 + i)), Nat.sub_zero,
    List.getElem?_eq_none (by rw [h4.1]; omega)]
  dsimp only
  rw [get2_setBlock, if_pos (show 512 ≤ 512 + i by omega),
    Nat.add_sub_cancel_left]
  have hibl : i < bl.length := by rw [h3.1]; exact hi
  rw [List.getElem?_eq_getElem hibl]
  dsimp only
  have hb : (bl[i])[1024 + j - 0]? = none := by
    rw [Nat.sub_zero]
    exact List.getElem?_eq_none (by rw [h3.2 _ (List.getElem_mem hibl)]; omega)
  rw [map_pastile 0 (1024 + j) _ hb]
  rw [get2_setBlock, if_pos (show 512 ≤ 512 + i by omega),
    Nat.add_sub_cancel_left]
  have hibr : i < br.length := by rw [h2.1]; exact hi
  rw [List.getElem?_eq_getElem hibr]
  dsimp only
  have hjr : j < (br[i]).length := by
    rw [h2.2 _ (List.getElem_mem hibr)]; exact hj
  have hw : (br[i])[1024 + j - 1024]? = some ((br[i])[j]) := by
    rw [Nat.add_sub_cancel_left]
    exact List.getElem?_eq_getElem hjr
  have hsome : (get2 (setBlock
      (List.replicate 1024 (List.replicate 2048 0)) 0 0 tl)
      (512 + i) (1024 + j)).isSome = true := by
    refine get2_isSome_of_rowlen _ (512 + i) (1024 + j) 2048 ?_ (by omega)
    rw [rowlen_setBlock,
      List.getElem?_replicate, if_pos (show 512 + i < 1024 by omega),
      Option.map_some', List.length_replicate]
  rw [map_tile 1024 (1024 + j) (by omega) _ _ hw _ hsome]
  unfold get2
  rw [List.getElem?_eq_getElem hibr]
  simp only [Option.some_bind]
  rw [List.getElem?_eq_getElem hjr]

theorem assocFind_mem {l : List (String × Option Mat)} {k : String} {w : Option Mat}
    (h : assocFind l k = some w) : (k, w) ∈ l := by
  induction l with
  | nil => simp [assocFind] at h
  | cons p rest ih =>
    obtain ⟨k', v⟩ := p
    unfold assocFind at h
    by_cases hk : k' = k
    · rw [if_pos hk] at h
      subst hk
      cases h
      exact List.mem_cons_self _ _
    · rw [if_neg hk] at h
      exact List.mem_cons_of_mem _ (ih h)

theorem assocFind_eq_none {l : List (String × Option Mat)} {k : String}
    (h : k ∉ l.map Prod.fst) : assocFind l k = none := by
  induction l with
  | nil => rfl
  | cons p rest ih =>
    obtain ⟨k', v⟩ := p
    simp only [List.map_cons, List.mem_cons] at h
    push_neg at h
    unfold assocFind
    rw [if_neg (fun he => h.1 he.symm)]
    exact ih h.2

theorem assocFind_of_mem_nodup {l : List (String × Option Mat)} {k : String} {w : Option Mat}
    (hm : (k, w) ∈ l) (hnd : (l.map Prod.fst).Nodup) : assocFind l k = some w := by
  induction l with
  | nil => simp at hm
  | cons p rest ih =>
    obtain ⟨k', v⟩ := p
    simp only [List.map_cons, List.nodup_cons] at hnd
    rcases List.mem_cons.mp hm with heq | htail
    · cases heq
      unfold assocFind
      rw [if_pos rfl]
    · unfold assocFind
      by_cases hk : k' = k
      · exfalso
        subst hk
        exact hnd.1 (List.mem_map.mpr ⟨(k', w), htail, rfl⟩)
      · rw [if_neg hk]
        exact ih htail hnd.2

theorem mem_download_intro (fetch : Fetch) (date : ObsDate)
    (pt det tb lr v h : String) (hv : v ∈ tbTuple tb) (hh : h ∈ lrTuple lr) :
    (v ++ h, fetch date pt det v h) ∈ download_calibration_data fetch date pt det tb lr := by
  unfold download_calibration_data
  rw [List.mem_flatten]
  refine ⟨(lrTuple lr).map (fun h' => (v ++ h', fetch date pt det v h')), ?_, ?_⟩
  · exact List.mem_map.mpr ⟨v, hv, rfl⟩
  · exact List.mem_map.mpr ⟨h, hh, rfl⟩

theorem mem_download_elim {fetch : Fetch} {date : ObsDate}
    {pt det tb lr k : String} {w : Option Mat}
    (hm : (k, w) ∈ download_calibration_data fetch date pt det tb lr) :
    ∃ v h, v ∈ tbTuple tb ∧ h ∈ lrTuple lr ∧ k = v ++ h ∧ w = fetch date pt det v h := by
  unfold download_calibration_data at hm
  rw [List.mem_flatten] at hm
  obtain ⟨sub, hsub, hk⟩ := hm
  obtain ⟨v, hv, rfl⟩ := List.mem_map.mp hsub
  obtain ⟨h, hh, hph⟩ := List.mem_map.mp hk
  exact ⟨v, h, hv, hh, congrArg Prod.fst hph.symm, congrArg Prod.snd hph.symm⟩

theorem calc_cases (date : ObsDate) (a b e f : ℕ) :
    (calculate_detectors date a b e f).1 ∈ (["middle", "top", "bottom", "both"] : List String) ∧
    (calculate_detectors date a b e f).2 ∈ (["left", "right", "both"] : List String) := by
  unfold calculate_detectors
  constructor <;> dsimp only <;> split_ifs <;> simp

theorem tbTuple_sub {tb : String} (h : tb ∈ (["middle", "top", "bottom", "both"] : List String))
    (hne : tb ≠ "middle") : tbTuple tb ⊆ ["top", "bottom"] := by
  simp only [List.mem_cons, List.not_mem_nil, or_false] at h
  rcases h with rfl | rfl | rfl | rfl
  · exact absurd rfl hne
  · intro x hx
    simp [tbTuple] at hx
    simp [hx]
  · intro x hx
    simp [tbTuple] at hx
    simp [hx]
  · intro x hx
    simp [tbTuple] at hx
    rcases hx with rfl | rfl <;> simp

theorem lrTuple_sub {lr : String} (h : lr ∈ (["left", "right", "both"] : List String)) :
    lrTuple lr ⊆ ["left", "right"] := by
  simp only [List.mem_cons, List.not_mem_nil, or_false] at h
  rcases h with rfl | rfl | rfl
  · intro x hx
    simp [lrTuple] at hx
    simp [hx]
  · intro x hx
    simp [lrTuple] at hx
    simp [hx]
  · intro x hx
    simp [lrTuple] at hx
    rcases hx with rfl | rfl <;> simp

theorem map_fst_download (fetch : Fetch) (date : ObsDate) (pt det tb lr : String) :
    (download_calibration_data fetch date pt det tb lr).map Prod.fst =
      ((tbTuple tb).map (fun v => (lrTuple lr).map (fun h => v ++ h))).flatten := by
  unfold download_calibration_data
  rw [List.map_flatten]
  simp [List.map_map, Function.comp_def]

theorem keys_nodup (fetch : Fetch) (date : ObsDate) (pt det : String) {tb lr : String}
    (htb : tb ∈ (["middle", "top", "bottom", "both"] : List String))
    (hlr : lr ∈ (["left", "right", "both"] : List String)) :
    ((download_calibration_data fetch date pt det tb lr).map Prod.fst).Nodup := by
  rw [map_fst_download]
  simp only [List.mem_cons, List.not_mem_nil, or_false] at htb hlr
  rcases htb with rfl | rfl | rfl | rfl <;> rcases hlr with rfl | rfl | rfl <;> decide

theorem getTile_absent {arrays : List (String × Option Mat)} {k : String}
    (h : k ∉ arrays.map Prod.fst) : getTile arrays k = some zeroTile := by
  unfold getTile
  rw [assocFind_eq_none h]

theorem getTile_some_shaped {fetch : Fetch} {date : ObsDate} {pt det tb lr : String}
    (hall : ∀ v h, v ∈ tbTuple tb → h ∈ lrTuple lr →
      ∃ t, fetch date pt det v h = some t ∧ Shape2 t) (k : String) :
    ∃ t, getTile (download_calibration_data fetch date pt det tb lr) k = some t ∧
      Shape2 t := by
  unfold getTile
  cases ha : assocFind (download_calibration_data fetch date pt det tb lr) k with
  | none => exact ⟨zeroTile, rfl, shape2_zeroTile⟩
  | some w =>
    obtain ⟨v, h, hv, hh, -, hw⟩ := mem_download_elim (assocFind_mem ha)
    obtain ⟨t, ht, hsh⟩ := hall v h hv hh
    exact ⟨t, by rw [hw, ht], hsh⟩

theorem getTile_isSome {fetch : Fetch} {date : ObsDate} {pt det tb lr : String}
    (hall : ∀ v h, ∃ t, fetch date pt det v h = some t) (k : String) :
    ∃ t, getTile (download_calibration_data fetch date pt det tb lr) k = some t := by
  unfold getTile
  cases ha : assocFind (download_calibration_data fetch date pt det tb lr) k with
  | none => exact ⟨zeroTile, rfl⟩
  | some w =>
    obtain ⟨v, h, -, -, -, hw⟩ := mem_download_elim (assocFind_mem ha)
    obtain ⟨t, ht⟩ := hall v h
    exact ⟨t, by rw [hw, ht]⟩

theorem gluedCanvas_none_of {arrays : List (String × Option Mat)} {k : String}
    (hmem : k ∈ (["topleft", "bottomright", "bottomleft", "topright"] : List String))
    (hk : getTile arrays k = none) : gluedCanvas arrays = none := by
  unfold gluedCanvas
  simp only [List.mem_cons, List.not_mem_nil, or_false] at hmem
  rcases hmem with rfl | rfl | rfl | rfl <;>
    cases h1 : getTile arrays "topleft" <;>
    cases h2 : getTile arrays "bottomright" <;>
    cases h3 : getTile arrays "bottomleft" <;>
    cases h4 : getTile arrays "topright" <;>
    simp_all

theorem get2_crop2 (g : Mat) (y0 y1 xs xe a b : ℕ)
    (hy : y0 + a < y1) (hx : xs + b < xe) :
    get2 (crop2 g y0 y1 xs xe) a b = get2 g (y0 + a) (xs + b) := by
  unfold crop2 pySlice get2
  rw [List.getElem?_map, List.getElem?_drop, List.getElem?_take, if_pos hy]
  cases hg : g[y0 + a]? with
  | none => rfl
  | some row =>
    simp only [Option.map_some', Option.some_bind]
    rw [List.getElem?_drop, List.getElem?_take, if_pos hx]

theorem get2_zeroTile (i j : ℕ) (hi : i < 512) (hj : j < 1024) :
    get2 zeroTile i j = some 0 := by
  unfold get2 zeroTile
  rw [List.getElem?_replicate, if_pos hi]
  simp only [Option.some_bind]
  rw [List.getElem?_replicate, if_pos hj]

/-- The argument actually passed to `_download_calibration_data` by
`_get_pixel_map` for a given request. -/
def dlArrays (fetch : Fetch) (date : ObsDate) (pt det : String)
    (yw xw : ℕ × ℕ) : List (String × Option Mat) :=
  download_calibration_data fetch date pt det
    (calculate_detectors date yw.1 (yw.2 - yw.1) (xw.1 % 2048) (xw.2 - xw.1)).1
    (calculate_detectors date yw.1 (yw.2 - yw.1) (xw.1 % 2048) (xw.2 - xw.1)).2

/-- What the compositor guarantees when every requested quadrant fetch
succeeds with a well-shaped tile: a canvas is glued and cropped, every
quadrant whose key was never requested is all-zero on the canvas, and the
crop exposes exactly the canvas values of the requested window. -/
def compositorZeroFill (fetch : Fetch) (date : ObsDate) (pt det : String)
    (yw xw : ℕ × ℕ) : Prop :=
  ∃ g, gluedCanvas (dlArrays fetch date pt det yw xw) = some g ∧
    get_pixel_map fetch date pt det yw xw =
      some (crop2 g yw.1 yw.2 (xw.1 % 2048) (xw.2 % 2048)) ∧
    (∀ i j, i < 512 → j < 1024 →
      ("topleft" ∉ (dlArrays fetch date pt det yw xw).map Prod.fst →
        get2 g i j = some 0) ∧
      ("topright" ∉ (dlArrays fetch date pt det yw xw).map Prod.fst →
        get2 g i (1024 + j) = some 0) ∧
      ("bottomleft" ∉ (dlArrays fetch date pt det yw xw).map Prod.fst →
        get2 g (512 + i) j = some 0) ∧
      ("bottomright" ∉ (dlArrays fetch date pt det yw xw).map Prod.fst →
        get2 g (512 + i) (1024 + j) = some 0)) ∧
    (∀ a b, yw.1 + a < yw.2 → (xw.1 % 2048) + b < xw.2 % 2048 →
      get2 (crop2 g yw.1 yw.2 (xw.1 % 2048) (xw.2 % 2048)) a b =
        get2 g (yw.1 + a) ((xw.1 % 2048) + b))

/-- C3 (amended): an absent fetch for a requested (non-"middle") quadrant
makes the compositor fail — `_get_pixel_map` produces no bitmap, because the
`None` stored under the quadrant's key bypasses the zero-tile default of
`.get` and cannot be placed into the canvas.  The all-zero tile is used only
for quadrants whose key was never requested; when every requested fetch
succeeds, the canvas is glued with those quadrants all-zero and the crop
reflects the canvas. -/
theorem c3_compositor_absent_quadrant (fetch : Fetch) (date : ObsDate)
    (pt det : String) (yw xw : ℕ × ℕ) (tb lr : String)
    (harea : calculate_detectors date yw.1 (yw.2 - yw.1) (xw.1 % 2048)
      (xw.2 - xw.1) = (tb, lr)) :
    (∀ v h, v ∈ tbTuple tb → h ∈ lrTuple lr → tb ≠ "middle" →
       fetch date pt det v h = none →
       get_pixel_map fetch date pt det yw xw = none) ∧
    ((∀ v h, v ∈ tbTuple tb → h ∈ lrTuple lr →
        ∃ t, fetch date pt det v h = some t ∧ Shape2 t) →
      compositorZeroFill fetch date pt det yw xw) := by
  have hdl : dlArrays fetch date pt det yw xw =
      download_calibration_data fetch date pt det tb lr := by
    unfold dlArrays
    rw [harea]
  have hgpm : get_pixel_map fetch date pt det yw xw =
      (gluedCanvas (dlArrays fetch date pt det yw xw)).map
        (fun g => crop2 g yw.1 yw.2 (xw.1 % 2048) (xw.2 % 2048)) := rfl
  constructor
  · intro v h hv hh hne hf
    have hc := calc_cases date yw.1 (yw.2 - yw.1) (xw.1 % 2048) (xw.2 - xw.1)
    rw [harea] at hc
    have hvm : v ∈ (["top", "bottom"] : List String) := tbTuple_sub hc.1 hne hv
    have hhm : h ∈ (["left", "right"] : List String) := lrTuple_sub hc.2 hh
    have hnd := keys_nodup fetch date pt det hc.1 hc.2
    have hmem := mem_download_intro fetch date pt det tb lr v h hv hh
    rw [hf] at hmem
    have hfind : assocFind (download_calibration_data fetch date pt det tb lr)
        (v ++ h) = some none := assocFind_of_mem_nodup hmem hnd
    have hgt : getTile (download_calibration_data fetch date pt det tb lr)
        (v ++ h) = none := by
      unfold getTile
      rw [hfind]
    have hkey : (v ++ h) ∈
        (["topleft", "bottomright", "bottomleft", "topright"] : List String) := by
      simp only [List.mem_cons, List.not_mem_nil, or_false] at hvm hhm
      rcases hvm with rfl | rfl <;> rcases hhm with rfl | rfl <;> decide
    have hnone := gluedCanvas_none_of hkey hgt
    rw [hgpm, hdl, hnone]
    rfl
  · intro hall
    obtain ⟨tl, htl, stl⟩ := getTile_some_shaped hall "topleft"
    obtain ⟨br, hbr, sbr⟩ := getTile_some_shaped hall "bottomright"
    obtain ⟨bl, hbl, sbl⟩ := getTile_some_shaped hall "bottomleft"
    obtain ⟨tr, htr, str⟩ := getTile_some_shaped hall "topright"
    have hg : gluedCanvas (download_calibration_data fetch date pt det tb lr) =
        some (glueTiles tl br bl tr) := by
      unfold gluedCanvas
      rw [htl, hbr, hbl, htr]
      rfl
    unfold compositorZeroFill
    refine ⟨glueTiles tl br bl tr, by rw [hdl]; exact hg, ?_, ?_, ?_⟩
    · rw [hgpm, hdl, hg]
      rfl
    · intro i j hi hj
      refine ⟨?_, ?_, ?_, ?_⟩
      · intro habs
        rw [hdl] at habs
        have hz := getTile_absent habs
        rw [htl] at hz
        rw [get2_glue_topleft tl br bl tr stl i j hi hj, Option.some.inj hz]
        exact get2_zeroTile i j hi hj
      · intro habs
        rw [hdl] at habs
        have hz := getTile_absent habs
        rw [htr] at hz
        rw [get2_glue_topright tl br bl tr stl str i j hi hj, Option.some.inj hz]
        exact get2_zeroTile i j hi hj
      · intro habs
        rw [hdl] at habs
        have hz := getTile_absent habs
        rw [hbl] at hz
        rw [get2_glue_bottomleft tl br bl tr stl sbr sbl str i j hi hj,
          Option.some.inj hz]
        exact get2_zeroTile i j hi hj
      · intro habs
        rw [hdl] at habs
        have hz := getTile_absent habs
        rw [hbr] at hz
        rw [get2_glue_bottomright tl br bl tr stl sbr sbl str i j hi hj,
          Option.some.inj hz]
        exact get2_zeroTile i j hi hj
    · intro a b hya hxb
      exact get2_crop2 _ yw.1 yw.2 (xw.1 % 2048) (xw.2 % 2048) a b hya hxb

/-- A fetch whose fallback search is always exhausted (returns absent). -/
def fetchNone : Fetch := fun _ _ _ _ _ => none

/-- A fetch that always succeeds with the all-zero 512×1024 tile. -/
def fetchZ : Fetch := fun _ _ _ _ _ => some zeroTile

/-- Counterexample to C3 as stated: a request resolving to the single
quadrant (top, right) whose fetch is absent does not produce a canvas with
that quadrant zero-filled — the compositor fails outright (no bitmap). -/
theorem c3_counterexample :
    get_pixel_map fetchNone ⟨2015, 1, 1⟩ "hp" "a" (600, 700) (1200, 1300) = none := by
  decide

/-- Witness for C3 (amended): both branches applied at the (top, right)
request — the absent fetch makes the compositor fail, and an all-succeeding
fetch yields the glued-and-cropped canvas with unrequested quadrants zero. -/
theorem c3_witness :
    get_pixel_map fetchNone ⟨2015, 1, 1⟩ "hp" "a" (600, 700) (1200, 1300) = none ∧
    compositorZeroFill fetchZ ⟨2015, 1, 1⟩ "hp" "a" (600, 700) (1200, 1300) := by
  constructor
  · exact (c3_compositor_absent_quadrant fetchNone ⟨2015, 1, 1⟩ "hp" "a"
      (600, 700) (1200, 1300) "top" "right" (by decide)).1 "top" "right"
      (by decide) (by decide) (by decide) rfl
  · exact (c3_compositor_absent_quadrant fetchZ ⟨2015, 1, 1⟩ "hp" "a"
      (600, 700) (1200, 1300) "top" "right" (by decide)).2
      (fun v h _ _ => ⟨zeroTile, rfl, shape2_zeroTile⟩)

/-- C8 (amended): for every requested window, the compositor (when all
fetches succeed) returns the Python slice `canvas[y0:y1, x0%2048:x1%2048]`:
`min y1 1024 - y0` rows, and every row has `x1 % 2048 - x0 % 2048` columns
(natural subtraction) — so an X range that crosses the canvas-width boundary
(`x0 % 2048 > x1 % 2048`) yields empty rows, not a wrapped window of width
`x1 - x0`. -/
theorem c8_crop_window (fetch : Fetch)
    (hf : ∀ d p dt v h, ∃ t, fetch d p dt v h = some t)
    (date : ObsDate) (pt det : String) (y0 y1 x0 x1 : ℕ) :
    ∃ cR, get_pixel_map fetch date pt det (y0, y1) (x0, x1) = some cR ∧
      cR.length = min y1 1024 - y0 ∧
      ∀ r ∈ cR, r.length = x1 % 2048 - x0 % 2048 := by
  have hgpm : get_pixel_map fetch date pt det (y0, y1) (x0, x1) =
      (gluedCanvas (dlArrays fetch date pt det (y0, y1) (x0, x1))).map
        (fun g => crop2 g y0 y1 (x0 % 2048) (x1 % 2048)) := rfl
  obtain ⟨tl, htl⟩ := @getTile_isSome fetch date pt det
    (calculate_detectors date y0 (y1 - y0) (x0 % 2048) (x1 - x0)).1
    (calculate_detectors date y0 (y1 - y0) (x0 % 2048) (x1 - x0)).2
    (fun v h => hf date pt det v h) "topleft"
  obtain ⟨br, hbr⟩ := @getTile_isSome fetch date pt det
    (calculate_detectors date y0 (y1 - y0) (x0 % 2048) (x1 - x0)).1
    (calculate_detectors date y0 (y1 - y0) (x0 % 2048) (x1 - x0)).2
    (fun v h => hf date pt det v h) "bottomright"
  obtain ⟨bl, hbl⟩ := @getTile_isSome fetch date pt det
    (calculate_detectors date y0 (y1 - y0) (x0 % 2048) (x1 - x0)).1
    (calculate_detectors date y0 (y1 - y0) (x0 % 2048) (x1 - x0)).2
    (fun v h => hf date pt det v h) "bottomleft"
  obtain ⟨tr, htr⟩ := @getTile_isSome fetch date pt det
    (calculate_detectors date y0 (y1 - y0) (x0 % 2048) (x1 - x0)).1
    (calculate_detectors date y0 (y1 - y0) (x0 % 2048) (x1 - x0)).2
    (fun v h => hf date pt det v h) "topright"
  have hg : gluedCanvas (dlArrays fetch date pt det (y0, y1) (x0, x1)) =
      some (glueTiles tl br bl tr) := by
    show gluedCanvas (download_calibration_data fetch date pt det
      (calculate_detectors date y0 (y1 - y0) (x0 % 2048) (x1 - x0)).1
      (calculate_detectors date y0 (y1 - y0) (x0 % 2048) (x1 - x0)).2) =
        some (glueTiles tl br bl tr)
    unfold gluedCanvas
    rw [htl, hbr, hbl, htr]
    rfl
  refine ⟨crop2 (glueTiles tl br bl tr) y0 y1 (x0 % 2048) (x1 % 2048), ?_, ?_, ?_⟩
  · rw [hgpm, hg]
    rfl
  · unfold crop2 pySlice
    rw [List.length_map, List.length_drop, List.length_take, length_glueTiles]
  · intro r hr
    unfold crop2 at hr
    obtain ⟨row, hrow, rfl⟩ := List.mem_map.mp hr
    have hrr : row ∈ glueTiles tl br bl tr := by
      unfold pySlice at hrow
      exact List.mem_of_mem_take (List.mem_of_mem_drop hrow)
    obtain ⟨idx, hidx⟩ := List.mem_iff_getElem?.mp hrr
    have hlen : row.length = 2048 := by
      have hrl := rowlen_glueTiles tl br bl tr idx
      rw [hidx] at hrl
      by_cases hcase : idx < 1024
      · rw [if_pos hcase] at hrl
        simpa using hrl
      · rw [if_neg hcase] at hrl
        simp at hrl
    unfold pySlice
    rw [List.length_drop, List.length_take, hlen,
      Nat.min_eq_left (le_of_lt (Nat.mod_lt _ (by norm_num)))]

set_option maxRecDepth 40000 in
/-- Counterexample to C8 as stated: the window y=(0,10), x=(2000,2100)
crosses the canvas-width boundary (2000 mod 2048 = 2000 > 52 = 2100 mod
2048); the returned crop has 10 rows but every row is empty (width 0), not
the claimed width x1 - x0 = 100. -/
theorem c8_counterexample :
    (get_pixel_map fetchZ ⟨2015, 1, 1⟩ "hp" "a" (0, 10) (2000, 2100)).map
      (fun cR => (cR.length, cR.map List.length)) =
        some (10, List.replicate 10 0) ∧
    (2100 : ℕ) - 2000 ≠ 0 := by
  constructor
  · decide
  · decide

/-- Witness for C8 (amended) at the boundary-crossing window. -/
theorem c8_witness :
    ∃ cR, get_pixel_map fetchZ ⟨2015, 1, 1⟩ "hp" "a" (0, 10) (2000, 2100) = some cR ∧
      cR.length = min 10 1024 - 0 ∧
      ∀ r ∈ cR, r.length = 2100 % 2048 - 2000 % 2048 :=
  c8_crop_window fetchZ (fun _ _ _ _ _ => ⟨zeroTile, rfl⟩) ⟨2015, 1, 1⟩ "hp" "a"
    0 10 2000 2100

-- ============  Pixel-map fetcher (eis_prep.py:227-296)  ===================

/-- Day number of the proleptic Gregorian calendar — the value underlying
`datetime` subtraction (standard civil-from-days algorithm; this module only
handles modern dates, for which every division below is on non-negative
values). -/
def ObsDate.toDays (dt : ObsDate) : ℤ :=
  let y : ℤ := if dt.month ≤ 2 then (dt.year : ℤ) - 1 else (dt.year : ℤ)
  let era : ℤ := (if 0 ≤ y then y else y - 399) / 400
  let yoe : ℤ := y - era * 400
  let mp : ℤ := if 2 < dt.month then (dt.month : ℤ) - 3 else (dt.month : ℤ) + 9
  let doy : ℤ := (153 * mp + 2) / 5 + (dt.day : ℤ) - 1
  let doe : ℤ := yoe * 365 + yoe / 4 - yoe / 100 + doy
  era * 146097 + doe - 719468

/-- `__darts__` (eis_prep.py:21). -/
def dartsURL : String := "http://darts.jaxa.jp/pub/ssw/solarb/eis/data/cal/"

/-- Two-digit zero-padded decimal (`%m`, `%d`, `%y`). -/
def pad2 (n : ℕ) : String := if n < 10 then "0" ++ toString n else toString n

/-- Four-digit zero-padded decimal (`%Y`). -/
def pad4 (n : ℕ) : String :=
  if n < 10 then "000" ++ toString n
  else if n < 100 then "00" ++ toString n
  else if n < 1000 then "0" ++ toString n
  else toString n

/-- `date.strftime("%Y-%m-%d")`. -/
def fmtYmd (d : ObsDate) : String :=
  pad4 d.year ++ "-" ++ pad2 d.month ++ "-" ++ pad2 d.day

/-- The lowercased en_GB month abbreviation (`%b` under the locale the
source forces around the call, modeled by the fixed English table). -/
def monthAbbrev (m : ℕ) : String :=
  (["jan", "feb", "mar", "apr", "may", "jun",
    "jul", "aug", "sep", "oct", "nov", "dec"].getD (m - 1) "jan")

/-- `date.strftime("%d%b%y").lower()`. -/
def fmtDby (d : ObsDate) : String :=
  pad2 d.day ++ monthAbbrev d.month ++ pad2 (d.year % 100)

/-- `_construct_hot_warm_pix_url` (eis_prep.py:275-296).  Note the source's
own `detector != 'middle'` comparison (the detector is `'a'`/`'b'`, never
`'middle'`) is translated verbatim. -/
def construct_hot_warm_pix_url (date : ObsDate)
    (pix_type detector top_bot left_right : String) : String :=
  let url := dartsURL ++ pix_type ++ "/" ++ fmtYmd date ++ "/" ++
    "coords_" ++ detector ++ "_" ++ left_right ++ "_"
  let datestr := fmtDby date
  if pix_type = "wp" then url ++ top_bot ++ "_" ++ datestr ++ "_100s.sav"
  else (url ++ datestr) ++
    (if detector ≠ "middle" then "_" ++ top_bot else "") ++ ".sav"

/-- The remote DARTS archive as an oracle: HTTP status per URL (`urlopen`),
decoded array content per URL (`urlretrieve` + `readsav`), and the parsed
directory listing of calibration dates per listing URL (`urlopen` +
BeautifulSoup + the header-row skip of `_get_cal_dates`). -/
structure Archive where
  code : String → ℕ
  content : String → Mat
  listing : String → List ObsDate

/-- `_get_cal_dates` (eis_prep.py:261-272): one listing request, returning
the archive's dates for the pixel type. -/
def get_cal_dates (arch : Archive) (pix_type : String) : List ObsDate × List String :=
  let url := dartsURL ++ pix_type ++ "/"
  (arch.listing url, [url])

/-- The sort key of eis_prep.py:247: `d - date if d > date else date - d`,
i.e. the absolute distance in days. -/
def distKey (date d : ObsDate) : ℤ :=
  if date.toDays < d.toDays then d.toDays - date.toDays else date.toDays - d.toDays

/-- Boolean key comparison used to model `list.sort(key=...)`. -/
def keyLe (key : ObsDate → ℤ) : ObsDate → ObsDate → Bool :=
  fun a b => decide (key a ≤ key b)

/-- The probe order of `_try_download_nearest_cal`: the archive's listed
dates stably sorted by ascending distance to the requested date (Python's
`list.sort` is stable; `sortLe` is the stable insertion sort). -/
def probeOrder (arch : Archive) (date : ObsDate) (pix_type : String) : List ObsDate :=
  sortLe (keyLe (distKey date)) (arch.listing (dartsURL ++ pix_type ++ "/"))

/-- The probe loop of eis_prep.py:249-258: for each candidate date in order,
`urlopen` the URL (logged); on HTTP 200, `urlretrieve` it again (logged) and
return the decoded array; otherwise continue.  Falls off the end with no
value (`None`). -/
def probeLoop (arch : Archive) (pix_type detector top_bot left_right : String) :
    List ObsDate → Option Mat × List String
  | [] => (none, [])
  | cal_date :: rest =>
    let url := construct_hot_warm_pix_url cal_date pix_type detector top_bot left_right
    if arch.code url = 200 then (some (arch.content url), [url, url])
    else
      let r := probeLoop arch pix_type detector top_bot left_right rest
      (r.1, url :: r.2)

/-- `__pix_memo__`, the process-wide cache, as an association list. -/
abbrev PixMemo := List (String × Mat)

/-- `key in __pix_memo__` / `__pix_memo__[key]`. -/
def memoFind : PixMemo → String → Option Mat
  | [], _ => none
  | (k, v) :: rest, key => if k = key then some v else memoFind rest key

/-- `_try_download_nearest_cal` (eis_prep.py:237-258): build the exact-date
key; on a cache hit return it with no network access; otherwise request the
listing, sort the listed dates by distance, probe them in order, and on
success memoize under the exact-date key.  Returns (value, new memo, request
log). -/
def try_download_nearest_cal (arch : Archive) (memo : PixMemo) (date : ObsDate)
    (pix_type detector top_bot left_right : String) :
    Option Mat × PixMemo × List String :=
  let key := construct_hot_warm_pix_url date pix_type detector top_bot left_right
  match memoFind memo key with
  | some arr => (some arr, memo, [])
  | none =>
    let listURL := dartsURL ++ pix_type ++ "/"
    let dates := probeOrder arch date pix_type
    let pr := probeLoop arch pix_type detector top_bot left_right dates
    match pr.1 with
    | some arr => (some arr, (key, arr) :: memo, listURL :: pr.2)
    | none => (none, memo, listURL :: pr.2)

/-- `_get_dusty_array` (eis_prep.py:227-234): download the single global
dusty-pixel map (no cache consulted, a request on every call) and slice it
to the window. -/
def get_dusty_array (arch : Archive) (y_window x_window : ℕ × ℕ) : Mat × List String :=
  let url := dartsURL ++ "dp/dusty_pixels.sav"
  let dusties := arch.content url
  (crop2 dusties y_window.1 y_window.2 x_window.1 x_window.2, [url])

/-- C6 (amended): for hot and warm pixel maps, once a fetch with given
arguments has completed successfully, a second fetch with identical
arguments is served from the process-wide cache: it issues no network
request (empty request log), returns the same array, and leaves the cache
unchanged.  (The dusty map is not cached — see the counterexample.) -/
theorem c6_hot_warm_memoized (arch : Archive) (memo : PixMemo) (date : ObsDate)
    (pt det tb lr : String) (arr : Mat) (memo' : PixMemo) (log : List String)
    (h : try_download_nearest_cal arch memo date pt det tb lr = (some arr, memo', log)) :
    try_download_nearest_cal arch memo' date pt det tb lr = (some arr, memo', []) := by
  simp only [try_download_nearest_cal] at h ⊢
  cases hm : memoFind memo (construct_hot_warm_pix_url date pt det tb lr) with
  | some a =>
    rw [hm] at h
    simp only [Prod.mk.injEq] at h
    obtain ⟨ha, hmem, -⟩ := h
    rw [← hmem, hm, ha]
  | none =>
    rw [hm] at h
    cases hp : (probeLoop arch pt det tb lr (probeOrder arch date pt)).1 with
    | none =>
      rw [hp] at h
      simp at h
    | some a =>
      rw [hp] at h
      simp only [Prod.mk.injEq] at h
      obtain ⟨ha, hmem, -⟩ := h
      rw [← hmem]
      have : memoFind
          ((construct_hot_warm_pix_url date pt det tb lr, a) :: memo)
          (construct_hot_warm_pix_url date pt det tb lr) = some a := by
        unfold memoFind
        rw [if_pos rfl]
      rw [this, ha]

/-- An archive oracle whose every URL responds 200 with content [[42]] and
whose listings are empty. -/
def archA : Archive :=
  { code := fun _ => 200, content := fun _ => [[42]], listing := fun _ => [] }

/-- Counterexample to C6 as stated: the dusty-pixel fetch consults no cache
and issues a download request on every call — in particular a second call
with identical arguments (the function is stateless, so every repeat call
behaves like this one) performs a network request rather than being served
from the process-wide cache. -/
theorem c6_counterexample :
    (get_dusty_array archA (0, 1) (0, 1)).2 = [dartsURL ++ "dp/dusty_pixels.sav"] ∧
    (get_dusty_array archA (0, 1) (0, 1)).2 ≠ [] := by
  exact ⟨rfl, by decide⟩

/-- An archive oracle listing the single calibration date 2015-01-05 for
every type, every URL responding 200 with content [[42]]. -/
def archB : Archive :=
  { code := fun _ => 200, content := fun _ => [[42]],
    listing := fun _ => [⟨2015, 1, 5⟩] }

/-- Witness for C6 (amended): after a successful first fetch from an empty
cache, the identical second fetch returns the same array, issues no request
and leaves the cache unchanged. -/
theorem c6_witness :
    try_download_nearest_cal archB
      [(construct_hot_warm_pix_url ⟨2015, 1, 1⟩ "hp" "a" "top" "left", [[42]])]
      ⟨2015, 1, 1⟩ "hp" "a" "top" "left" =
      (some [[42]],
       [(construct_hot_warm_pix_url ⟨2015, 1, 1⟩ "hp" "a" "top" "left", [[42]])],
       []) :=
  c6_hot_warm_memoized archB [] ⟨2015, 1, 1⟩ "hp" "a" "top" "left" [[42]]
    [(construct_hot_warm_pix_url ⟨2015, 1, 1⟩ "hp" "a" "top" "left", [[42]])]
    [dartsURL ++ "hp/",
     construct_hot_warm_pix_url ⟨2015, 1, 5⟩ "hp" "a" "top" "left",
     construct_hot_warm_pix_url ⟨2015, 1, 5⟩ "hp" "a" "top" "left"]
    (by decide)

theorem insertLe_perm {α : Type} (le : α → α → Bool) (x : α) :
    ∀ l, (insertLe le x l).Perm (x :: l) := by
  intro l
  induction l with
  | nil => exact List.Perm.refl _
  | cons y ys ih =>
    unfold insertLe
    by_cases hle : le x y = true
    · rw [if_pos hle]
    · rw [if_neg hle]
      exact (List.Perm.cons y ih).trans (List.Perm.swap x y ys)

theorem sortLe_perm {α : Type} (le : α → α → Bool) :
    ∀ l, (sortLe le l).Perm l := by
  intro l
  induction l with
  | nil => exact List.Perm.refl _
  | cons x xs ih =>
    exact (insertLe_perm le x (sortLe le xs)).trans (List.Perm.cons x ih)

theorem insertLe_pairwise (key : ObsDate → ℤ) (x : ObsDate) :
    ∀ l, List.Pairwise (fun a b => key a ≤ key b) l →
      List.Pairwise (fun a b => key a ≤ key b) (insertLe (keyLe key) x l) := by
  intro l
  induction l with
  | nil =>
    intro _
    simp [insertLe]
  | cons y ys ih =>
    intro hp
    rw [List.pairwise_cons] at hp
    unfold insertLe
    by_cases hle : keyLe key x y = true
    · rw [if_pos hle]
      simp only [keyLe, decide_eq_true_eq] at hle
      rw [List.pairwise_cons]
      constructor
      · intro b hb
        rcases List.mem_cons.mp hb with rfl | hbys
        · exact hle
        · exact le_trans hle (hp.1 b hbys)
      · exact List.pairwise_cons.mpr hp
    · rw [if_neg hle]
      simp only [keyLe, decide_eq_true_eq] at hle
      rw [List.pairwise_cons]
      constructor
      · intro b hb
        have hb' := (insertLe_perm (keyLe key) x ys).mem_iff.mp hb
        rcases List.mem_cons.mp hb' with rfl | hbys
        · omega
        · exact hp.1 b hbys
      · exact ih hp.2

theorem sortLe_pairwise (key : ObsDate → ℤ) :
    ∀ l, List.Pairwise (fun a b => key a ≤ key b) (sortLe (keyLe key) l) := by
  intro l
  induction l with
  | nil => exact List.Pairwise.nil
  | cons x xs ih => exact insertLe_pairwise key x (sortLe (keyLe key) xs) ih

theorem insertLe_filter (key : ObsDate → ℤ) (cval : ℤ) (x : ObsDate) :
    ∀ l, (insertLe (keyLe key) x l).filter (fun d => decide (key d = cval)) =
      if key x = cval then x :: l.filter (fun d => decide (key d = cval))
      else l.filter (fun d => decide (key d = cval)) := by
  intro l
  induction l with
  | nil =>
    unfold insertLe
    by_cases hx : key x = cval
    · rw [if_pos hx]
      simp [List.filter, hx]
    · rw [if_neg hx]
      simp [List.filter, hx]
  | cons y ys ih =>
    unfold insertLe
    by_cases hle : keyLe key x y = true
    · rw [if_pos hle]
      by_cases hx : key x = cval
      · rw [if_pos hx, List.filter_cons_of_pos (by simp [hx])]
      · rw [if_neg hx, List.filter_cons_of_neg (by simp [hx])]
    · rw [if_neg hle]
      have hyx : key y < key x := by
        simp only [keyLe, decide_eq_true_eq] at hle
        omega
      by_cases hy : key y = cval
      · have hx : ¬ key x = cval := by omega
        rw [List.filter_cons_of_pos (by simp [hy]), ih, if_neg hx, if_neg hx,
          List.filter_cons_of_pos (by simp [hy])]
      · rw [List.filter_cons_of_neg (by simp [hy]), ih]
        by_cases hx : key x = cval
        · rw [if_pos hx, if_pos hx, List.filter_cons_of_neg (by simp [hy])]
        · rw [if_neg hx, if_neg hx, List.filter_cons_of_neg (by simp [hy])]

theorem sortLe_filter (key : ObsDate → ℤ) (cval : ℤ) :
    ∀ l : List ObsDate,
      (sortLe (keyLe key) l).filter (fun d => decide (key d = cval)) =
        l.filter (fun d => decide (key d = cval)) := by
  intro l
  induction l with
  | nil => rfl
  | cons x xs ih =>
    unfold sortLe
    rw [insertLe_filter]
    by_cases hx : key x = cval
    · rw [if_pos hx, ih, List.filter_cons_of_pos (by simp [hx])]
    · rw [if_neg hx, ih, List.filter_cons_of_neg (by simp [hx])]

theorem probeLoop_spec (arch : Archive) (pt det tb lr : String) :
    ∀ ds : List ObsDate,
      ∃ k, k ≤ ds.length ∧
        (∀ d ∈ ds.take k,
          arch.code (construct_hot_warm_pix_url d pt det tb lr) ≠ 200) ∧
        ((∃ d, ds[k]? = some d ∧
            arch.code (construct_hot_warm_pix_url d pt det tb lr) = 200 ∧
            probeLoop arch pt det tb lr ds =
              (some (arch.content (construct_hot_warm_pix_url d pt det tb lr)),
               (ds.take k).map (fun d' => construct_hot_warm_pix_url d' pt det tb lr) ++
                 [construct_hot_warm_pix_url d pt det tb lr,
                  construct_hot_warm_pix_url d pt det tb lr])) ∨
         (k = ds.length ∧ probeLoop arch pt det tb lr ds =
            (none, ds.map (fun d' => construct_hot_warm_pix_url d' pt det tb lr)))) := by
  intro ds
  induction ds with
  | nil =>
    refine ⟨0, Nat.le_refl 0, ?_, Or.inr ⟨rfl, rfl⟩⟩
    intro d hd
    simp at hd
  | cons d0 rest ih =>
    by_cases hc : arch.code (construct_hot_warm_pix_url d0 pt det tb lr) = 200
    · refine ⟨0, Nat.zero_le _, ?_, Or.inl ⟨d0, by simp, hc, ?_⟩⟩
      · intro d hd
        simp at hd
      · simp only [probeLoop]
        rw [if_pos hc]
        simp
    · obtain ⟨k, hk, hfail, hres⟩ := ih
      refine ⟨k + 1, by simpa using Nat.succ_le_succ hk, ?_, ?_⟩
      · intro d hd
        rw [List.take_succ_cons] at hd
        rcases List.mem_cons.mp hd with rfl | hdr
        · exact hc
        · exact hfail d hdr
      · rcases hres with ⟨d, hd, hcode, heq⟩ | ⟨hlen, heq⟩
        · left
          refine ⟨d, by simpa using hd, hcode, ?_⟩
          simp only [probeLoop]
          rw [if_neg hc, heq]
          simp [List.take_succ_cons]
        · right
          refine ⟨by simp [hlen], ?_⟩
          simp only [probeLoop]
          rw [if_neg hc, heq]
          simp

/-- The fallback-search behaviour of `_try_download_nearest_cal` on a cache
miss: the probe order is a permutation of the archive's listing (only listed
dates are ever probed — no separate exact-date attempt exists), sorted by
ascending absolute day distance to the requested date, with equidistant
dates kept in the listing's original order (stability); the loop stops at
the first success (all earlier probes failed) or exhausts the list. -/
def fallbackSearchSpec (arch : Archive) (memo : PixMemo) (date : ObsDate)
    (pt det tb lr : String) : Prop :=
  (probeOrder arch date pt).Perm (arch.listing (dartsURL ++ pt ++ "/")) ∧
  List.Pairwise (fun a b => distKey date a ≤ distKey date b) (probeOrder arch date pt) ∧
  (∀ cval : ℤ, (probeOrder arch date pt).filter (fun d => decide (distKey date d = cval)) =
     (arch.listing (dartsURL ++ pt ++ "/")).filter
       (fun d => decide (distKey date d = cval))) ∧
  (∃ k, k ≤ (probeOrder arch date pt).length ∧
    (∀ d ∈ (probeOrder arch date pt).take k,
      arch.code (construct_hot_warm_pix_url d pt det tb lr) ≠ 200) ∧
    ((∃ d, (probeOrder arch date pt)[k]? = some d ∧
        arch.code (construct_hot_warm_pix_url d pt det tb lr) = 200 ∧
        (try_download_nearest_cal arch memo date pt det tb lr).1 =
          some (arch.content (construct_hot_warm_pix_url d pt det tb lr)) ∧
        (try_download_nearest_cal arch memo date pt det tb lr).2.2 =
          (dartsURL ++ pt ++ "/") ::
            (((probeOrder arch date pt).take k).map
              (fun d' => construct_hot_warm_pix_url d' pt det tb lr) ++
             [construct_hot_warm_pix_url d pt det tb lr,
              construct_hot_warm_pix_url d pt det tb lr])) ∨
     (k = (probeOrder arch date pt).length ∧
        (try_download_nearest_cal arch memo date pt det tb lr).1 = none ∧
        (try_download_nearest_cal arch memo date pt det tb lr).2.2 =
          (dartsURL ++ pt ++ "/") ::
            (probeOrder arch date pt).map
              (fun d' => construct_hot_warm_pix_url d' pt det tb lr))))

/-- C7 (amended): on a cache miss the fetcher probes only the archive's
listed calibration dates, in ascending order of absolute distance in days
from the requested date, ties kept in the listing's original order, stopping
at the first success or after exhaustion.  The exact requested date gets no
separate first attempt: it is probed only insofar as it appears in the
archive listing (where it has distance zero). -/
theorem c7_nearest_date_fallback (arch : Archive) (memo : PixMemo)
    (date : ObsDate) (pt det tb lr : String)
    (hmiss : memoFind memo (construct_hot_warm_pix_url date pt det tb lr) = none) :
    fallbackSearchSpec arch memo date pt det tb lr := by
  unfold fallbackSearchSpec
  refine ⟨sortLe_perm _ _, sortLe_pairwise _ _, fun cval => sortLe_filter _ cval _, ?_⟩
  obtain ⟨k, hk, hfail, hres⟩ := probeLoop_spec arch pt det tb lr (probeOrder arch date pt)
  refine ⟨k, hk, hfail, ?_⟩
  rcases hres with ⟨d, hd, hcode, heq⟩ | ⟨hlen, heq⟩
  · left
    refine ⟨d, hd, hcode, ?_, ?_⟩
    · simp only [try_download_nearest_cal, hmiss]
      rw [heq]
    · simp only [try_download_nearest_cal, hmiss]
      rw [heq]
  · right
    refine ⟨hlen, ?_, ?_⟩
    · simp only [try_download_nearest_cal, hmiss]
      rw [heq]
    · simp only [try_download_nearest_cal, hmiss]
      rw [heq]

/-- Counterexample to C7 as stated: requesting 2015-01-01 against an archive
that lists only 2015-01-05 — while every URL (including the exact-date one)
would respond HTTP 200 — yields a request log of exactly the listing URL and
the probe/retrieve of 2015-01-05.  The exact requested date's URL is never
attempted, so there is no "exact date first" attempt: only listed dates are
probed. -/
theorem c7_counterexample :
    (try_download_nearest_cal archB [] ⟨2015, 1, 1⟩ "hp" "a" "top" "left").2.2 =
      [dartsURL ++ "hp/",
       construct_hot_warm_pix_url ⟨2015, 1, 5⟩ "hp" "a" "top" "left",
       construct_hot_warm_pix_url ⟨2015, 1, 5⟩ "hp" "a" "top" "left"] ∧
    construct_hot_warm_pix_url ⟨2015, 1, 1⟩ "hp" "a" "top" "left" ∉
      (try_download_nearest_cal archB [] ⟨2015, 1, 1⟩ "hp" "a" "top" "left").2.2 ∧
    archB.code (construct_hot_warm_pix_url ⟨2015, 1, 1⟩ "hp" "a" "top" "left") = 200 := by
  refine ⟨by decide, by decide, rfl⟩

/-- Witness for C7 (amended): the fallback-search specification discharged
at a concrete cache-miss request. -/
theorem c7_witness : fallbackSearchSpec archB [] ⟨2015, 1, 1⟩ "hp" "a" "top" "left" :=
  c7_nearest_date_fallback archB [] ⟨2015, 1, 1⟩ "hp" "a" "top" "left" rfl
